import Mathlib

/-!
Shallow embedding of the Gemini QA web application's core logic
(`text_utils.py`, `agents.py`, `app.py`) and proofs about it.

Text is modelled as `List Char` (Python `str` is a sequence of characters);
string literals enter through `String.data`.
-/

/-- Text type: Python strings as character lists. -/
abbrev Str := List Char

/-- Whitespace characters recognised by Python's `str.split()` / `str.strip()`
(ASCII range: space, tab, newline, carriage return, vertical tab, form feed). -/
def pyIsSpace (c : Char) : Bool :=
  c == ' ' || c == '\t' || c == '\n' || c == '\r' ||
  c == Char.ofNat 11 || c == Char.ofNat 12

/-- Python's substring containment test `needle in haystack`. -/
def pyIn (needle haystack : Str) : Bool :=
  decide (needle <:+: haystack)

/-- Python's `str.lower()` (ASCII letters, which is all the code compares). -/
def pyLower (s : Str) : Str := s.map Char.toLower

/-- Python's `str.upper()` (ASCII letters). -/
def pyUpper (s : Str) : Str := s.map Char.toUpper

/-- `text_utils.count_words`: word, sentence and character counts.
Mirrors the source: empty or whitespace-only text gives `(0, 0, 0)`;
words are the tokens of `text.split()`; sentences are the summed counts of
`'.'`, `'!'`, `'?'`; characters are the length after removing `' '` and
`'\n'` only. -/
def count_words (text : Str) : Nat × Nat × Nat :=
  if text.all pyIsSpace then (0, 0, 0)
  else
    let words := ((text.splitOnP pyIsSpace).filter (fun w => w ≠ [])).length
    let sentences := (text.filter (fun c => c == '.')).length +
      (text.filter (fun c => c == '!')).length +
      (text.filter (fun c => c == '?')).length
    let chars := (text.filter (fun c => !(c == ' ' || c == '\n'))).length
    (words, sentences, chars)

/-- Modelled from the spec: `contains_numbers` is imported by `agents.py`
from `text_utils`, but its definition is absent from the provided sources.
Per the spec it returns true iff at least one decimal digit character
appears anywhere in the text. -/
def contains_numbers (text : Str) : Bool :=
  text.any (fun c => c.isDigit)

/-- A Gemini tool configuration, abstracted to which tools it carries
(`types.GenerateContentConfig(tools=[...])` in `agents.py`). -/
structure ToolConfig where
  hasSearch : Bool
  hasCode : Bool
deriving DecidableEq

/-- `self.config_with_search_and_code` from `GeminiAssistant.setup_api`. -/
def config_with_search_and_code : ToolConfig := ⟨true, true⟩

/-- `self.config_with_search` from `GeminiAssistant.setup_api`. -/
def config_with_search : ToolConfig := ⟨true, false⟩

/-- `self.config_with_code` from `GeminiAssistant.setup_api`. -/
def config_with_code : ToolConfig := ⟨false, true⟩

/-- `self.config_no_tools` from `GeminiAssistant.setup_api`. -/
def config_no_tools : ToolConfig := ⟨false, false⟩

/-- `GeminiAssistant._get_config`: map the two boolean capability flags to
one of the four stored configurations. -/
def get_config (use_search use_code_execution : Bool) : ToolConfig :=
  if use_search && use_code_execution then config_with_search_and_code
  else if use_search then config_with_search
  else if use_code_execution then config_with_code
  else config_no_tools

/-- The tool configuration `GeminiAssistant.grader_agent` passes to its model
call: `use_code_execution = contains_numbers(response_text)` followed by
`self._get_config(use_search, use_code_execution)`.  The caller's stored
code-execution capability is not an input to `grader_agent`. -/
def grader_config (response_text : Str) (use_search : Bool) : ToolConfig :=
  get_config use_search (contains_numbers response_text)

/-- How the refinement loop in `GeminiAssistant.generate_response`
(`agents.py`, lines 313-344) terminated. -/
inductive LoopExit where
  | passed
  | graderError
  | refinerFailed
  | boundReached
deriving DecidableEq

/-- Observable outcome of the refinement loop: the final candidate
(`current` / `self.current_response`), the last recorded failed criteria
(`last_failed_criteria`), the exit kind, and how many times the grader and
the refiner were invoked. -/
structure LoopResult where
  current : Str
  lastFailed : Str
  exit : LoopExit
  graderCalls : Nat
  refinerCalls : Nat
deriving DecidableEq

/-- The body of `for i in range(max_refinements)` in
`GeminiAssistant.generate_response` (`agents.py`).  The model service is an
oracle: `grade j` is the `(grade_result, failed_criteria)` pair returned by
the `j`-th `grader_agent` call (the pair `("error", msg)` when that call
raised), and `refine j` is the result of the `j`-th `refiner_agent` call
(`none` when it raised).  `i` is the loop index, `fuel` the remaining
iterations, `cur`/`lf` the running `current`/`last_failed_criteria`, and
`g`/`r` the call counts so far. -/
def refinement_loop (grade : Nat → Str × Str) (refine : Nat → Option Str) :
    Nat → Nat → Str → Str → Nat → Nat → LoopResult
  | _, 0, cur, lf, g, r => ⟨cur, lf, .boundReached, g, r⟩
  | i, fuel + 1, cur, lf, g, r =>
    let gr := grade i
    if pyIn "pass".data gr.1 then ⟨cur, lf, .passed, g + 1, r⟩
    else if pyIn "error".data gr.1 then ⟨cur, lf, .graderError, g + 1, r⟩
    else
      match refine i with
      | none => ⟨cur, gr.2, .refinerFailed, g + 1, r + 1⟩
      | some nr => refinement_loop grade refine (i + 1) fuel nr gr.2 (g + 1) (r + 1)

/-- Run the refinement loop as `generate_response` does: from the initial
candidate, with empty `last_failed_criteria` and zero calls made. -/
def run_refinement (grade : Nat → Str × Str) (refine : Nat → Option Str)
    (init : Str) (max_refinements : Nat) : LoopResult :=
  refinement_loop grade refine 0 max_refinements init "".data 0 0

/-- The quality-notice text appended in the loop's `else` block
(`agents.py`, line 344). -/
def quality_notice (failed : Str) : Str :=
  "\n\n---\n**⚠️ Quality Check Notice:** Maximum refinement iterations reached. The response may not fully meet the following criteria:\n\n".data
    ++ failed

/-- `GeminiAssistant.generate_response` (`agents.py`) after a successful
initial generation returning text `initText`: return immediately when
agents are disabled; return the initial candidate when criteria generation
failed (`criteria = none`); otherwise run the refinement loop and, only when
the bound was exhausted with a non-empty `last_failed_criteria` whose
lowercasing is not `"none"`, append the quality notice. -/
def generate_response (initText : Str) (use_agents : Bool)
    (criteria : Option Str) (grade : Nat → Str × Str)
    (refine : Nat → Option Str) (max_refinements : Nat) : Str :=
  if !use_agents then initText
  else
    match criteria with
    | none => initText
    | some _ =>
      let r := run_refinement grade refine initText max_refinements
      match r.exit with
      | .boundReached =>
        if r.lastFailed ≠ [] ∧ pyLower r.lastFailed ≠ "none".data then
          r.current ++ quality_notice r.lastFailed
        else r.current
      | _ => r.current

/-- The candidate held in `current` after `k` consecutive fail-and-refine
iterations starting from index `i` with candidate `cur`: each successful
refinement output replaces the candidate. -/
def adoptedFrom (refine : Nat → Option Str) : Nat → Nat → Str → Str
  | _, 0, cur => cur
  | i, k + 1, cur => adoptedFrom refine (i + 1) k ((refine i).getD cur)

/-- A grader outcome the loop classifies as a failure: neither the pass
check (`"pass" in grade`) nor the error check (`"error" in grade`) fires. -/
def failClassified (gr : Str × Str) : Prop :=
  pyIn "pass".data gr.1 = false ∧ pyIn "error".data gr.1 = false

/-- The value of `last_failed_criteria` after `k` consecutive fail-and-refine
iterations starting from index `i` with previous value `lf`: each fail
branch records that iteration's `failed_criteria`. -/
def lfFrom (grade : Nat → Str × Str) : Nat → Nat → Str → Str
  | _, 0, lf => lf
  | i, k + 1, _ => lfFrom grade (i + 1) k (grade i).2

/-- One conversation turn rendered by the composer in `app.py`
(`generate_response`, line 276): `f"\n{msg['role'].upper()}: {msg['content']}\n"`. -/
def render_turn (m : Str × Str) : Str :=
  "\n".data ++ pyUpper m.1 ++ ": ".data ++ m.2 ++ "\n".data

/-- The conversation-history block built in `app.py`'s `generate_response`
(lines 272-277): empty for an empty history, otherwise a header, each turn
appended in order, and an end marker. -/
def build_history_context (conversation_history : List (Str × Str)) : Str :=
  if conversation_history = [] then []
  else
    conversation_history.foldl (fun acc m => acc ++ render_turn m)
      "\n\n=== CONVERSATION HISTORY ===\n".data
    ++ "\n=== END HISTORY ===\n\n".data

/-- One attached file rendered by the composer in `app.py` (line 285):
`f"--- File: {filename} ---\n{content}\n\n"`. -/
def render_file (f : Str × Str) : Str :=
  "--- File: ".data ++ f.1 ++ " ---\n".data ++ f.2 ++ "\n\n".data

/-- The attached-file-contexts block built in `app.py`'s `generate_response`
(lines 283-285): a header, then each `(filename, content)` pair appended in
insertion order. -/
def context_section (file_contexts : List (Str × Str)) : Str :=
  file_contexts.foldl (fun acc f => acc ++ render_file f)
    "\n\n=== ATTACHED FILE CONTEXTS ===\n\n".data

/-- `full_prompt` as composed in `app.py`'s `generate_response`
(lines 280-288): history block, then (only when attachments are present)
the file-contexts block and the literal user-prompt label, then the prompt. -/
def compose_full_prompt (prompt : Str)
    (file_contexts conversation_history : List (Str × Str)) : Str :=
  let history_context := build_history_context conversation_history
  if file_contexts = [] then history_context ++ prompt
  else
    history_context ++ context_section file_contexts
      ++ "=== USER PROMPT ===\n\n".data ++ prompt

/-- Observable outcome of `GeminiAssistant.cleanup_uploaded_files`: the
`self.uploaded_files` registry afterwards, and the log of deletion attempts
(handle paired with whether the remote delete succeeded). -/
structure CleanupResult where
  registry : List Str
  attempts : List (Str × Bool)
deriving DecidableEq

/-- `GeminiAssistant.cleanup_uploaded_files` (`agents.py`, lines 84-98):
return immediately on an empty registry; otherwise attempt deletion of
every tracked handle — each attempt's failure is caught and only logged
(`deleteOk` is the remote service's per-handle outcome, which never affects
control flow) — and finally reset the registry to empty. -/
def cleanup_uploaded_files (uploaded_files : List Str)
    (deleteOk : Str → Bool) : CleanupResult :=
  if uploaded_files = [] then ⟨uploaded_files, []⟩
  else ⟨[], uploaded_files.map (fun f => (f, deleteOk f))⟩

/-- The request-level outcome of `GeminiAssistant.generate_response`: the
text returned to the caller and the value of `self.current_response` at
return time. -/
structure ResponseOutcome where
  returned : Str
  current_response : Str
deriving DecidableEq

/-- `GeminiAssistant.generate_response` (`agents.py`, lines 263-355) as one
request, including the entry reset `self.current_response = ""` (line 266)
and the outer `except` handler (lines 349-355).  `initGen` is the initial
generation call's result (`none` when it raised) and `errMsg` the exception
text.  When the initial generation raises, `current_response` still holds
the empty string set on entry, so the handler's `if self.current_response`
branch is not taken and a bare `"Error: ..."` string is returned — no stale
content from an earlier request can leak.  On every non-raising path the
code returns `self.current_response` itself, which it keeps equal to the
running candidate (lines 301, 337), extended by the quality notice on the
bound-reached path (line 344). -/
def generate_response_request (initGen : Option Str) (errMsg : Str)
    (use_agents : Bool) (criteria : Option Str) (grade : Nat → Str × Str)
    (refine : Nat → Option Str) (max_refinements : Nat) : ResponseOutcome :=
  match initGen with
  | none => ⟨"Error: ".data ++ errMsg, []⟩
  | some t =>
    let out := generate_response t use_agents criteria grade refine max_refinements
    ⟨out, out⟩

/-- `pyIn` agrees with list containment of a contiguous segment. -/
theorem pyIn_eq_true_iff {n h : Str} : pyIn n h = true ↔ n <:+: h := by
  simp [pyIn]

/-- Call-count accounting for the refinement loop: the grader is invoked at
most once per unit of fuel, the refiner at most once per unit of fuel, and
the refiner is invoked no more often than the grader. -/
theorem loop_call_counts (grade : Nat → Str × Str) (refine : Nat → Option Str) :
    ∀ (fuel i : Nat) (cur lf : Str) (g r : Nat),
      (refinement_loop grade refine i fuel cur lf g r).graderCalls ≤ g + fuel ∧
      (refinement_loop grade refine i fuel cur lf g r).refinerCalls ≤ r + fuel ∧
      (refinement_loop grade refine i fuel cur lf g r).refinerCalls + g ≤
        (refinement_loop grade refine i fuel cur lf g r).graderCalls + r := by
  intro fuel
  induction fuel with
  | zero =>
    intro i cur lf g r
    simp [refinement_loop]
    omega
  | succ n ih =>
    intro i cur lf g r
    by_cases hp : pyIn "pass".data (grade i).1 = true
    · simp [refinement_loop, hp]
      omega
    · simp only [Bool.not_eq_true] at hp
      by_cases he : pyIn "error".data (grade i).1 = true
      · simp [refinement_loop, hp, he]
        omega
      · simp only [Bool.not_eq_true] at he
        cases hr : refine i with
        | none =>
          simp [refinement_loop, hp, he, hr]
          omega
        | some nr =>
          simp only [refinement_loop, hp, he, hr, Bool.false_eq_true, if_false]
          obtain ⟨h1, h2, h3⟩ := ih (i + 1) nr (grade i).2 (g + 1) (r + 1)
          refine ⟨by omega, by omega, by omega⟩

/-- After `k` lead-in iterations, `last_failed_criteria` holds the failed
criteria reported by the most recent grading call. -/
theorem lfFrom_last (grade : Nat → Str × Str) :
    ∀ (k i : Nat) (lf : Str), lfFrom grade i (k + 1) lf = (grade (i + k)).2 := by
  intro k
  induction k with
  | zero => intro i lf; rfl
  | succ m ih =>
    intro i lf
    have h := ih (i + 1) (grade i).2
    calc lfFrom grade i (m + 2) lf = lfFrom grade (i + 1) (m + 1) (grade i).2 := rfl
      _ = (grade (i + 1 + m)).2 := h
      _ = (grade (i + (m + 1))).2 := by rw [show i + 1 + m = i + (m + 1) by omega]

/-- Running the loop through `k` consecutive iterations that all grade as
fail and refine successfully advances index, candidate,
`last_failed_criteria` and both call counters by `k`. -/
theorem loop_reach (grade : Nat → Str × Str) (refine : Nat → Option Str) :
    ∀ (k i fuel : Nat) (cur lf : Str) (g r : Nat),
      (∀ j, j < k → failClassified (grade (i + j)) ∧ (refine (i + j)).isSome = true) →
      refinement_loop grade refine i (k + fuel) cur lf g r =
        refinement_loop grade refine (i + k) fuel (adoptedFrom refine i k cur)
          (lfFrom grade i k lf) (g + k) (r + k) := by
  intro k
  induction k with
  | zero =>
    intro i fuel cur lf g r _
    simp [adoptedFrom, lfFrom]
  | succ m ih =>
    intro i fuel cur lf g r h
    obtain ⟨⟨hp, he⟩, hs⟩ := h 0 (Nat.succ_pos m)
    simp only [Nat.add_zero] at hp he hs
    obtain ⟨s, hsome⟩ := Option.isSome_iff_exists.mp hs
    have hfuel : m + 1 + fuel = (m + fuel) + 1 := by omega
    rw [hfuel]
    simp only [refinement_loop, hp, he, hsome, Bool.false_eq_true, if_false]
    have hnext : ∀ j, j < m →
        failClassified (grade (i + 1 + j)) ∧ (refine (i + 1 + j)).isSome = true := by
      intro j hj
      have := h (j + 1) (by omega)
      rwa [show i + (j + 1) = i + 1 + j by omega] at this
    have hstep := ih (i + 1) fuel s (grade i).2 (g + 1) (r + 1) hnext
    rw [hstep]
    have e1 : i + 1 + m = i + (m + 1) := by omega
    have e2 : g + 1 + m = g + (m + 1) := by omega
    have e3 : r + 1 + m = r + (m + 1) := by omega
    rw [e1, e2, e3]
    have e4 : adoptedFrom refine (i + 1) m s = adoptedFrom refine i (m + 1) cur := by
      simp [adoptedFrom, hsome]
    have e5 : lfFrom grade (i + 1) m (grade i).2 = lfFrom grade i (m + 1) lf := rfl
    rw [e4, e5]

/-- The candidate the loop ends with is either the one it started with or
the output of some successful refiner call. -/
theorem loop_current_cases (grade : Nat → Str × Str) (refine : Nat → Option Str) :
    ∀ (fuel i : Nat) (cur lf : Str) (g r : Nat),
      (refinement_loop grade refine i fuel cur lf g r).current = cur ∨
      ∃ j s, refine j = some s ∧
        (refinement_loop grade refine i fuel cur lf g r).current = s := by
  intro fuel
  induction fuel with
  | zero =>
    intro i cur lf g r
    left
    rfl
  | succ n ih =>
    intro i cur lf g r
    by_cases hp : pyIn "pass".data (grade i).1 = true
    · left; simp [refinement_loop, hp]
    · simp only [Bool.not_eq_true] at hp
      by_cases he : pyIn "error".data (grade i).1 = true
      · left; simp [refinement_loop, hp, he]
      · simp only [Bool.not_eq_true] at he
        cases hr : refine i with
        | none => left; simp [refinement_loop, hp, he, hr]
        | some nr =>
          simp only [refinement_loop, hp, he, hr, Bool.false_eq_true, if_false]
          rcases ih (i + 1) nr (grade i).2 (g + 1) (r + 1) with hc | ⟨j, s, hj, hc⟩
          · exact Or.inr ⟨i, nr, hr, hc⟩
          · exact Or.inr ⟨j, s, hj, hc⟩

/-- Appending-only folds extend their accumulator on the right. -/
theorem foldl_append_extend {α : Type} (g : α → Str) :
    ∀ (l : List α) (a : Str), ∃ t, l.foldl (fun acc y => acc ++ g y) a = a ++ t := by
  intro l
  induction l with
  | nil => intro a; exact ⟨[], by simp⟩
  | cons x xs ih =>
    intro a
    obtain ⟨t, ht⟩ := ih (a ++ g x)
    exact ⟨g x ++ t, by simp [ht, List.append_assoc]⟩

/-- Each rendered element is a contiguous segment of an appending-only fold. -/
theorem mem_foldl_append {α : Type} (g : α → Str) :
    ∀ (l : List α) (a : Str) (x : α), x ∈ l →
      g x <:+: l.foldl (fun acc y => acc ++ g y) a := by
  intro l
  induction l with
  | nil => intro a x hx; cases hx
  | cons y ys ih =>
    intro a x hx
    rcases List.mem_cons.mp hx with h | h
    · subst h
      obtain ⟨t, ht⟩ := foldl_append_extend g ys (a ++ g x)
      rw [List.foldl_cons, ht]
      exact ⟨a, t, by simp [List.append_assoc]⟩
    · exact ih (a ++ g y) x h

/-- A contiguous segment survives appending on the right. -/
theorem sub_append_right {x y : Str} (z : Str) (h : x <:+: y) : x <:+: y ++ z := by
  obtain ⟨s, t, ht⟩ := h
  exact ⟨s, t ++ z, by rw [← ht]; simp [List.append_assoc]⟩

/-- When the loop does not exhaust its bound, `generate_response` returns
the loop's final candidate with nothing appended. -/
theorem generate_response_of_exit (init c : Str) (grade : Nat → Str × Str)
    (refine : Nat → Option Str) (N : Nat)
    (h : (run_refinement grade refine init N).exit ≠ .boundReached) :
    generate_response init true (some c) grade refine N =
      (run_refinement grade refine init N).current := by
  cases hE : (run_refinement grade refine init N).exit with
  | boundReached => exact absurd hE h
  | passed => simp [generate_response, hE]
  | graderError => simp [generate_response, hE]
  | refinerFailed => simp [generate_response, hE]

/-- When the bound is exhausted with actionable failed criteria,
`generate_response` appends the quality notice. -/
theorem generate_response_bound (init c : Str) (grade : Nat → Str × Str)
    (refine : Nat → Option Str) (N : Nat)
    (hE : (run_refinement grade refine init N).exit = .boundReached)
    (h1 : (run_refinement grade refine init N).lastFailed ≠ [])
    (h2 : pyLower (run_refinement grade refine init N).lastFailed ≠ "none".data) :
    generate_response init true (some c) grade refine N =
      (run_refinement grade refine init N).current ++
        quality_notice (run_refinement grade refine init N).lastFailed := by
  simp [generate_response, hE, h1, h2]

/-- C1 counterexample: with `maxRefinements = 1` and a grader outcome that
is neither pass nor error, the refiner is invoked once — more than the
`N - 1 = 0` invocations the claim allows. -/
theorem refiner_calls_exceed_bound_minus_one :
    (run_refinement (fun _ => ("no".data, "".data)) (fun _ => some "y".data)
      "x".data 1).graderCalls = 1 ∧
    (run_refinement (fun _ => ("no".data, "".data)) (fun _ => some "y".data)
      "x".data 1).refinerCalls = 1 ∧
    ¬ ((run_refinement (fun _ => ("no".data, "".data)) (fun _ => some "y".data)
      "x".data 1).refinerCalls ≤ 1 - 1) := by
  decide

/-- C1 (amended): for every `maxRefinements = N ≥ 1` and every sequence of
grader/refiner outcomes, one run of the refinement loop invokes the grader
at most `N` times and the refiner at most `N` times (once per failed
grading cycle, including the final one) before a terminal state is
reached. -/
theorem refinement_call_bounds (grade : Nat → Str × Str)
    (refine : Nat → Option Str) (init : Str) (N : Nat) (hN : 1 ≤ N) :
    (run_refinement grade refine init N).graderCalls ≤ N ∧
    (run_refinement grade refine init N).refinerCalls ≤ N := by
  obtain ⟨h1, h2, _⟩ := loop_call_counts grade refine N 0 init "".data 0 0
  exact ⟨by simpa [run_refinement] using h1, by simpa [run_refinement] using h2⟩

/-- C1 witness: the bounds hold at a concrete run with `N = 2`. -/
theorem refinement_call_bounds_witness :
    1 ≤ 2 ∧
    ((run_refinement (fun _ => ("no".data, "".data)) (fun _ => none)
        "x".data 2).graderCalls ≤ 2 ∧
      (run_refinement (fun _ => ("no".data, "".data)) (fun _ => none)
        "x".data 2).refinerCalls ≤ 2) :=
  ⟨by decide,
    refinement_call_bounds (fun _ => ("no".data, "".data)) (fun _ => none)
      "x".data 2 (by decide)⟩

/-- C2 counterexample: `count_words "Hi. Wow!"` is `(2, 2, 7)` — the
character count with spaces and newlines removed is 7 (`Hi.Wow!`), not the
6 the claim's example states. -/
theorem count_words_example_mismatch :
    count_words "Hi. Wow!".data = (2, 2, 7) ∧
    count_words "Hi. Wow!".data ≠ (2, 2, 6) := by
  decide

/-- C2 (amended): the metrics examples with the character count of
`"Hi. Wow!"` corrected to 7; words are whitespace-delimited tokens,
sentences the summed `.`/`!`/`?` occurrences, characters the length with
spaces and newlines removed — tabs are split on for words but are *not*
stripped from the character count. -/
theorem count_words_examples :
    count_words "".data = (0, 0, 0) ∧
    count_words "a b c".data = (3, 0, 3) ∧
    count_words "Hi. Wow!".data = (2, 2, 7) ∧
    count_words "a\tb".data = (2, 0, 3) := by
  decide

/-- C3 counterexample: with the caller's code-execution capability off
(`false`) and a candidate containing a numeral, the claim predicts code
execution stays off (`numeral AND caller setting = false`), but the
grader's configuration has it on: `grader_agent` never consults the
caller's stored capability. -/
theorem grader_forces_code_execution :
    (grader_config "v2 release".data false).hasCode = true ∧
    (contains_numbers "v2 release".data && false) = false := by
  decide

/-- C3 (amended): for every grading call, the grader enables code execution
iff the candidate text contains at least one numeral, regardless of the
caller's stored code-execution capability; the caller's search setting is
honoured, and the override is a local variable of the call, leaving the
stored capability unchanged. -/
theorem grader_code_execution_rule (text : Str) (use_search : Bool) :
    (grader_config text use_search).hasCode = contains_numbers text ∧
    (grader_config text use_search).hasSearch = use_search := by
  cases use_search <;> cases h : contains_numbers text <;>
    simp [grader_config, get_config, h, config_with_search_and_code,
      config_with_search, config_with_code, config_no_tools]

/-- C4: `contains_numbers text` is true iff at least one decimal digit
character appears anywhere in `text`. -/
theorem contains_numbers_iff (text : Str) :
    contains_numbers text = true ↔ ∃ c ∈ text, c.isDigit = true := by
  simp [contains_numbers, List.any_eq_true]

/-- C10: calling the upload-cleanup operation twice in a row leaves the
tracked registry empty after each call, for every starting registry and
every pattern of per-handle deletion failures, and deletion is attempted
for every tracked handle on the first call. -/
theorem cleanup_idempotent (files : List Str) (deleteOk : Str → Bool) :
    (cleanup_uploaded_files files deleteOk).registry = [] ∧
    (cleanup_uploaded_files (cleanup_uploaded_files files deleteOk).registry
      deleteOk).registry = [] ∧
    (cleanup_uploaded_files files deleteOk).attempts =
      files.map (fun f => (f, deleteOk f)) := by
  by_cases h : files = [] <;> simp [cleanup_uploaded_files, h]

/-- C5: whenever criteria generation fails, the grader reports an error
verdict, or the refiner fails, the refinement loop stops immediately — in
the grader-error case without invoking the refiner for that iteration —
and `generate_response` returns the then-current candidate unchanged (the
initial candidate in the criteria-failure case).  `k` is the number of
completed fail-and-refine iterations before the failing one. -/
theorem error_short_circuit (init c : Str) (grade : Nat → Str × Str)
    (refine : Nat → Option Str) (N k : Nat) (hkN : k < N)
    (hlead : ∀ j, j < k → failClassified (grade j) ∧ (refine j).isSome = true) :
    generate_response init true none grade refine N = init ∧
    (pyIn "pass".data (grade k).1 = false → pyIn "error".data (grade k).1 = true →
      run_refinement grade refine init N =
        ⟨adoptedFrom refine 0 k init, lfFrom grade 0 k "".data,
          .graderError, k + 1, k⟩ ∧
      generate_response init true (some c) grade refine N =
        adoptedFrom refine 0 k init) ∧
    (failClassified (grade k) → refine k = none →
      run_refinement grade refine init N =
        ⟨adoptedFrom refine 0 k init, (grade k).2, .refinerFailed, k + 1, k + 1⟩ ∧
      generate_response init true (some c) grade refine N =
        adoptedFrom refine 0 k init) := by
  have hlead' : ∀ j, j < k →
      failClassified (grade (0 + j)) ∧ (refine (0 + j)).isSome = true := by
    intro j hj
    simpa using hlead j hj
  have hreach := loop_reach grade refine k 0 (N - k) init "".data 0 0 hlead'
  simp only [Nat.zero_add] at hreach
  have hfuel : k + (N - k) = N := by omega
  rw [hfuel] at hreach
  have hm : N - k = (N - k - 1) + 1 := by omega
  rw [hm] at hreach
  refine ⟨by simp [generate_response], ?_, ?_⟩
  · intro hp he
    have hstep : refinement_loop grade refine k (N - k - 1 + 1)
        (adoptedFrom refine 0 k init) (lfFrom grade 0 k "".data) k k =
        ⟨adoptedFrom refine 0 k init, lfFrom grade 0 k "".data,
          .graderError, k + 1, k⟩ := by
      simp [refinement_loop, hp, he]
    have hrun : run_refinement grade refine init N =
        ⟨adoptedFrom refine 0 k init, lfFrom grade 0 k "".data,
          .graderError, k + 1, k⟩ := hreach.trans hstep
    refine ⟨hrun, ?_⟩
    have hne : (run_refinement grade refine init N).exit ≠ .boundReached := by
      rw [hrun]
      simp
    have hgen := generate_response_of_exit init c grade refine N hne
    rw [hrun] at hgen
    exact hgen
  · intro hfk hrk
    have hstep : refinement_loop grade refine k (N - k - 1 + 1)
        (adoptedFrom refine 0 k init) (lfFrom grade 0 k "".data) k k =
        ⟨adoptedFrom refine 0 k init, (grade k).2, .refinerFailed,
          k + 1, k + 1⟩ := by
      simp [refinement_loop, hfk.1, hfk.2, hrk]
    have hrun : run_refinement grade refine init N =
        ⟨adoptedFrom refine 0 k init, (grade k).2, .refinerFailed,
          k + 1, k + 1⟩ := hreach.trans hstep
    refine ⟨hrun, ?_⟩
    have hne : (run_refinement grade refine init N).exit ≠ .boundReached := by
      rw [hrun]
      simp
    have hgen := generate_response_of_exit init c grade refine N hne
    rw [hrun] at hgen
    exact hgen

/-- C5 witness: with the grader erroring on the very first iteration, the
loop stops with one grader call, zero refiner calls, and the initial
candidate returned unchanged. -/
theorem error_short_circuit_witness :
    0 < 1 ∧
    pyIn "pass".data "error".data = false ∧
    pyIn "error".data "error".data = true ∧
    (run_refinement (fun _ => ("error".data, "boom".data)) (fun _ => none)
        "x".data 1 =
      ⟨"x".data, "".data, .graderError, 1, 0⟩ ∧
    generate_response "x".data true (some "c".data)
        (fun _ => ("error".data, "boom".data)) (fun _ => none) 1 = "x".data) :=
  ⟨by decide, by decide, by decide,
    (error_short_circuit "x".data "c".data
        (fun _ => ("error".data, "boom".data)) (fun _ => none) 1 0 (by decide)
        (fun j hj => absurd hj (Nat.not_lt_zero j))).2.1
      (by decide) (by decide)⟩

/-- C6: a grade verdict classified as pass never triggers a refinement
call, on any iteration `k < N` including the final allowed one: the loop
exits `passed` with the refiner invoked exactly `k` times (never for the
passing iteration), so a pass on iteration 1 (`k = 0`) means the refiner is
never called at all. -/
theorem pass_short_circuit (init c : Str) (grade : Nat → Str × Str)
    (refine : Nat → Option Str) (N k : Nat) (hkN : k < N)
    (hlead : ∀ j, j < k → failClassified (grade j) ∧ (refine j).isSome = true)
    (hpass : pyIn "pass".data (grade k).1 = true) :
    run_refinement grade refine init N =
      ⟨adoptedFrom refine 0 k init, lfFrom grade 0 k "".data, .passed, k + 1, k⟩ ∧
    (run_refinement grade refine init N).refinerCalls = k ∧
    generate_response init true (some c) grade refine N =
      adoptedFrom refine 0 k init := by
  have hlead' : ∀ j, j < k →
      failClassified (grade (0 + j)) ∧ (refine (0 + j)).isSome = true := by
    intro j hj
    simpa using hlead j hj
  have hreach := loop_reach grade refine k 0 (N - k) init "".data 0 0 hlead'
  simp only [Nat.zero_add] at hreach
  have hfuel : k + (N - k) = N := by omega
  rw [hfuel] at hreach
  have hm : N - k = (N - k - 1) + 1 := by omega
  rw [hm] at hreach
  have hstep : refinement_loop grade refine k (N - k - 1 + 1)
      (adoptedFrom refine 0 k init) (lfFrom grade 0 k "".data) k k =
      ⟨adoptedFrom refine 0 k init, lfFrom grade 0 k "".data, .passed,
        k + 1, k⟩ := by
    simp [refinement_loop, hpass]
  have hrun : run_refinement grade refine init N =
      ⟨adoptedFrom refine 0 k init, lfFrom grade 0 k "".data, .passed,
        k + 1, k⟩ := hreach.trans hstep
  refine ⟨hrun, by rw [hrun], ?_⟩
  have hne : (run_refinement grade refine init N).exit ≠ .boundReached := by
    rw [hrun]
    simp
  have hgen := generate_response_of_exit init c grade refine N hne
  rw [hrun] at hgen
  exact hgen

/-- C6 witness: a pass on iteration 1 leaves the refiner uncalled and
returns the initial candidate. -/
theorem pass_short_circuit_witness :
    0 < 1 ∧
    pyIn "pass".data "pass".data = true ∧
    (run_refinement (fun _ => ("pass".data, "None".data)) (fun _ => none)
        "x".data 1 =
      ⟨"x".data, "".data, .passed, 1, 0⟩ ∧
    (run_refinement (fun _ => ("pass".data, "None".data)) (fun _ => none)
        "x".data 1).refinerCalls = 0 ∧
    generate_response "x".data true (some "c".data)
        (fun _ => ("pass".data, "None".data)) (fun _ => none) 1 = "x".data) :=
  ⟨by decide, by decide,
    pass_short_circuit "x".data "c".data
      (fun _ => ("pass".data, "None".data)) (fun _ => none) 1 0 (by decide)
      (fun j hj => absurd hj (Nat.not_lt_zero j)) (by decide)⟩

/-- C7: if the loop exhausts `maxRefinements = N` without a pass (every
iteration grades fail and refines successfully), the final candidate is
kept, and when the last grading cycle's `failed_criteria` is non-empty and
not case-insensitively the sentinel `"none"`, the returned text is that
candidate followed by the quality-notice section containing the failed
criteria. -/
theorem bound_reached_notice (init c : Str) (grade : Nat → Str × Str)
    (refine : Nat → Option Str) (N : Nat) (hN : 1 ≤ N)
    (hall : ∀ j, j < N → failClassified (grade j) ∧ (refine j).isSome = true)
    (hfc1 : (grade (N - 1)).2 ≠ [])
    (hfc2 : pyLower (grade (N - 1)).2 ≠ "none".data) :
    run_refinement grade refine init N =
      ⟨adoptedFrom refine 0 N init, (grade (N - 1)).2, .boundReached, N, N⟩ ∧
    generate_response init true (some c) grade refine N =
      adoptedFrom refine 0 N init ++ quality_notice ((grade (N - 1)).2) ∧
    pyIn ((grade (N - 1)).2)
      (generate_response init true (some c) grade refine N) = true := by
  have hall' : ∀ j, j < N →
      failClassified (grade (0 + j)) ∧ (refine (0 + j)).isSome = true := by
    intro j hj
    simpa using hall j hj
  have hreach := loop_reach grade refine N 0 0 init "".data 0 0 hall'
  simp only [Nat.zero_add, Nat.add_zero] at hreach
  have hNe : N = (N - 1) + 1 := by omega
  have hlf := lfFrom_last grade (N - 1) 0 "".data
  rw [← hNe] at hlf
  simp only [Nat.zero_add] at hlf
  have hrun : run_refinement grade refine init N =
      ⟨adoptedFrom refine 0 N init, (grade (N - 1)).2, .boundReached, N, N⟩ := by
    calc run_refinement grade refine init N
        = refinement_loop grade refine N 0 (adoptedFrom refine 0 N init)
            (lfFrom grade 0 N "".data) N N := hreach
      _ = ⟨adoptedFrom refine 0 N init, lfFrom grade 0 N "".data,
            .boundReached, N, N⟩ := rfl
      _ = ⟨adoptedFrom refine 0 N init, (grade (N - 1)).2,
            .boundReached, N, N⟩ := by rw [hlf]
  refine ⟨hrun, ?_, ?_⟩
  · have hE : (run_refinement grade refine init N).exit = .boundReached := by
      rw [hrun]
    have h1 : (run_refinement grade refine init N).lastFailed ≠ [] := by
      rw [hrun]
      exact hfc1
    have h2 : pyLower (run_refinement grade refine init N).lastFailed ≠
        "none".data := by
      rw [hrun]
      exact hfc2
    have hgen := generate_response_bound init c grade refine N hE h1 h2
    rw [hrun] at hgen
    exact hgen
  · have hE : (run_refinement grade refine init N).exit = .boundReached := by
      rw [hrun]
    have h1 : (run_refinement grade refine init N).lastFailed ≠ [] := by
      rw [hrun]
      exact hfc1
    have h2 : pyLower (run_refinement grade refine init N).lastFailed ≠
        "none".data := by
      rw [hrun]
      exact hfc2
    have hgen := generate_response_bound init c grade refine N hE h1 h2
    rw [hrun] at hgen
    rw [hgen, pyIn_eq_true_iff, quality_notice]
    refine ⟨adoptedFrom refine 0 N init ++
      "\n\n---\n**⚠️ Quality Check Notice:** Maximum refinement iterations reached. The response may not fully meet the following criteria:\n\n".data,
      [], ?_⟩
    simp [List.append_assoc]

/-- C7 witness: the claim's own scenario — `maxRefinements = 2`, the grader
failing twice with `failed_criteria = "Must be 500 words, got 320"` — ends
with the notice carrying that text appended to the final candidate. -/
theorem bound_reached_notice_witness :
    1 ≤ 2 ∧
    (∀ j, j < 2 →
      failClassified ((fun _ => ("no".data, "Must be 500 words, got 320".data)) j) ∧
      (((fun _ => some "r".data) : Nat → Option Str) j).isSome = true) ∧
    ("Must be 500 words, got 320".data ≠ ([] : Str)) ∧
    pyLower "Must be 500 words, got 320".data ≠ "none".data ∧
    (generate_response "x".data true (some "c".data)
        (fun _ => ("no".data, "Must be 500 words, got 320".data))
        (fun _ => some "r".data) 2 =
      adoptedFrom (fun _ => some "r".data) 0 2 "x".data ++
        quality_notice "Must be 500 words, got 320".data ∧
    pyIn "Must be 500 words, got 320".data
      (generate_response "x".data true (some "c".data)
        (fun _ => ("no".data, "Must be 500 words, got 320".data))
        (fun _ => some "r".data) 2) = true) :=
  ⟨by decide,
    fun j _ =>
      ⟨⟨(by decide : pyIn "pass".data "no".data = false),
        (by decide : pyIn "error".data "no".data = false)⟩,
        (by decide : (some "r".data : Option Str).isSome = true)⟩,
    by decide, by decide,
    (bound_reached_notice "x".data "c".data
        (fun _ => ("no".data, "Must be 500 words, got 320".data))
        (fun _ => some "r".data) 2 (by decide)
        (fun j _ =>
          ⟨⟨(by decide : pyIn "pass".data "no".data = false),
            (by decide : pyIn "error".data "no".data = false)⟩,
            (by decide : (some "r".data : Option Str).isSome = true)⟩)
        (by decide) (by decide)).2⟩

/-- C8 counterexample: nothing prevents a successful initial generation
from carrying empty text, in which case `current_response` is empty after
the initial generation succeeded, contradicting the claimed invariant. -/
theorem current_response_can_be_empty :
    generate_response "".data true (some "c".data)
      (fun _ => ("no".data, "".data)) (fun _ => none) 1 = [] := by
  decide

/-- C8 (amended): per request the iteration count is bounded by
`maxRefinements` and the refiner never outruns the grader; the loop's final
candidate is always the last known-good text (the initial candidate or some
successful refiner output), hence non-empty whenever the initial generation
and every adopted refinement output are non-empty; the text returned to
the caller after a successful initial generation is that candidate,
possibly extended by the quality notice, with `current_response` tracking
exactly the returned text; and every failure path before the first
successful generation leaves no stale content: `current_response` is reset
on entry and still empty, and only a bare error string is returned. -/
theorem refinement_state_invariants (init c errMsg : Str)
    (grade : Nat → Str × Str) (refine : Nat → Option Str) (N : Nat) :
    (run_refinement grade refine init N).graderCalls ≤ N ∧
    (run_refinement grade refine init N).refinerCalls ≤
      (run_refinement grade refine init N).graderCalls ∧
    ((run_refinement grade refine init N).current = init ∨
      ∃ j s, refine j = some s ∧ (run_refinement grade refine init N).current = s) ∧
    (init ≠ [] → (∀ j s, refine j = some s → s ≠ []) →
      (run_refinement grade refine init N).current ≠ []) ∧
    (generate_response init true (some c) grade refine N =
        (run_refinement grade refine init N).current ∨
      generate_response init true (some c) grade refine N =
        (run_refinement grade refine init N).current ++
          quality_notice (run_refinement grade refine init N).lastFailed) ∧
    generate_response_request none errMsg true (some c) grade refine N =
      ⟨"Error: ".data ++ errMsg, []⟩ ∧
    (generate_response_request (some init) errMsg true (some c) grade refine
        N).current_response =
      generate_response init true (some c) grade refine N ∧
    (generate_response_request (some init) errMsg true (some c) grade refine
        N).returned =
      (generate_response_request (some init) errMsg true (some c) grade refine
        N).current_response := by
  obtain ⟨h1, _, h3⟩ := loop_call_counts grade refine N 0 init "".data 0 0
  have hcases := loop_current_cases grade refine N 0 init "".data 0 0
  refine ⟨by simpa [run_refinement] using h1,
    by simpa [run_refinement] using h3,
    by simpa [run_refinement] using hcases, ?_, ?_, rfl, rfl, rfl⟩
  · intro hinit href
    rcases hcases with hc | ⟨j, s, hj, hc⟩
    · rw [show run_refinement grade refine init N =
          refinement_loop grade refine 0 N init "".data 0 0 from rfl, hc]
      exact hinit
    · rw [show run_refinement grade refine init N =
          refinement_loop grade refine 0 N init "".data 0 0 from rfl, hc]
      exact href j s hj
  · cases hE : (run_refinement grade refine init N).exit with
    | boundReached =>
      by_cases hcond : (run_refinement grade refine init N).lastFailed ≠ [] ∧
          pyLower (run_refinement grade refine init N).lastFailed ≠ "none".data
      · exact Or.inr (generate_response_bound init c grade refine N hE
          hcond.1 hcond.2)
      · left
        simp [generate_response, hE, hcond]
    | passed => exact Or.inl (generate_response_of_exit init c grade refine N
        (by rw [hE]; simp))
    | graderError => exact Or.inl (generate_response_of_exit init c grade refine N
        (by rw [hE]; simp))
    | refinerFailed => exact Or.inl (generate_response_of_exit init c grade refine N
        (by rw [hE]; simp))

/-- C8 witness: the invariants instantiated on a concrete run whose initial
candidate and refiner outputs are non-empty. -/
theorem refinement_state_invariants_witness :
    ("hi".data ≠ ([] : Str)) ∧
    (run_refinement (fun _ => ("no".data, "x".data))
      (fun _ => some "ok".data) "hi".data 2).current ≠ [] := by
  refine ⟨by decide, ?_⟩
  have h := refinement_state_invariants "hi".data "c".data "e".data
    (fun _ => ("no".data, "x".data)) (fun _ => some "ok".data) 2
  refine h.2.2.2.1 (by decide) ?_
  intro j s hs
  cases hs
  decide

/-- C9: for every non-empty conversation history, non-empty inline
attachment map and user prompt, the composed prompt is the history block,
then the attached-file-contexts block, then the literal user-prompt label,
then the prompt text, in that order; the history block contains each
rendered turn, the attachments block contains each filename followed by its
extracted text, and the history block carries its delimiter. -/
theorem composer_ordering (prompt : Str) (files history : List (Str × Str))
    (hh : history ≠ []) (hf : files ≠ []) :
    compose_full_prompt prompt files history =
      build_history_context history ++ context_section files ++
        "=== USER PROMPT ===\n\n".data ++ prompt ∧
    (∀ m ∈ history, render_turn m <:+: build_history_context history) ∧
    (∀ f ∈ files, render_file f <:+: context_section files) ∧
    pyIn "=== CONVERSATION HISTORY ===".data
      (build_history_context history) = true := by
  refine ⟨by simp [compose_full_prompt, hf], ?_, ?_, ?_⟩
  · intro m hm
    have h1 := mem_foldl_append render_turn history
      "\n\n=== CONVERSATION HISTORY ===\n".data m hm
    rw [build_history_context, if_neg hh]
    exact sub_append_right _ h1
  · intro f hfm
    have h1 := mem_foldl_append render_file files
      "\n\n=== ATTACHED FILE CONTEXTS ===\n\n".data f hfm
    rw [context_section]
    exact h1
  · rw [build_history_context, if_neg hh]
    obtain ⟨t, ht⟩ := foldl_append_extend render_turn history
      "\n\n=== CONVERSATION HISTORY ===\n".data
    rw [ht, pyIn_eq_true_iff]
    have hsplit : ("\n\n=== CONVERSATION HISTORY ===\n".data : Str) =
        "\n\n".data ++ "=== CONVERSATION HISTORY ===".data ++ "\n".data := by
      decide
    rw [hsplit]
    exact ⟨"\n\n".data,
      "\n".data ++ t ++ "\n=== END HISTORY ===\n\n".data,
      by simp [List.append_assoc]⟩

/-- C9 witness: the claim's example — history `[{user, "A"}]`, attachments
`{"f.txt": "DATA"}`, prompt `"Q"`. -/
theorem composer_ordering_witness :
    ([(("user".data : Str), ("A".data : Str))] ≠ []) ∧
    ([(("f.txt".data : Str), ("DATA".data : Str))] ≠ []) ∧
    (compose_full_prompt "Q".data [("f.txt".data, "DATA".data)]
        [("user".data, "A".data)] =
      build_history_context [("user".data, "A".data)] ++
        context_section [("f.txt".data, "DATA".data)] ++
        "=== USER PROMPT ===\n\n".data ++ "Q".data ∧
    (∀ m ∈ [(("user".data : Str), ("A".data : Str))],
      render_turn m <:+: build_history_context [("user".data, "A".data)]) ∧
    (∀ f ∈ [(("f.txt".data : Str), ("DATA".data : Str))],
      render_file f <:+: context_section [("f.txt".data, "DATA".data)]) ∧
    pyIn "=== CONVERSATION HISTORY ===".data
      (build_history_context [("user".data, "A".data)]) = true) :=
  ⟨by simp, by simp,
    composer_ordering "Q".data [("f.txt".data, "DATA".data)]
      [("user".data, "A".data)] (by simp) (by simp)⟩
